import Mathlib

/-!
# Verification of the ZIP tree archiver (builtin-zip-tree.c)

Shallow embedding of the entry encoder `write_zip_entry`, the finalizer
`write_zip_trailer` and the little-endian field packers `copy_le16` /
`copy_le32` from `builtin-zip-tree.c`.

Modelling conventions:
* Bytes are `Nat` values; byte buffers are `List Nat`.
* The C globals `zip_offset`, `zip_dir`, `zip_dir_offset`, `zip_dir_entries`
  (all `unsigned int`, hence kept modulo 2 ^ 32 where the C code wraps) plus
  the bytes written so far to the archive output stream (file descriptor 1)
  are gathered in a `ZipState` record that every operation threads through.
* External collaborators that are not part of this file of the repository are
  oracle parameters: the content store `read_sha1_file` becomes
  `store : List Nat → Option (List Nat)` (`none` models a lookup failure, on
  which the code dies), the zlib call `crc32(0, buf, len)` becomes
  `crcF : List Nat → Nat` (the initial value `crc32(0, Z_NULL, 0)` used by the code is
  0 by the zlib API contract, so the CRC field of a directory is literally 0), and
  the adapter `zlib_deflate` — whose body is zlib calls — becomes
  `defl : List Nat → Option (List Nat)` returning the full zlib-framed stream
  (2-byte header + deflate data + 4-byte ADLER32) exactly as `zlib_deflate`
  returns its buffer with `compressed_size = stream.total_out`, or `none` on
  compression failure.
* `unsigned long` arithmetic (the `compressed_size - 6` profitability test)
  is taken modulo 2 ^ 64.
-/

namespace ZipTree

/-- Function `copy_le16` from builtin-zip-tree.c: packs the low 16 bits of `n`
little-endian; byte 0 is `0xff & n`, byte 1 is `0xff & (n >> 010)`. -/
def copy_le16 (n : Nat) : List Nat :=
  [n % 256, n / 256 % 256]

/-- Function `copy_le32` from builtin-zip-tree.c: packs the low 32 bits of `n`
little-endian, bytes `0xff & (n >> 0/8/16/24)`. -/
def copy_le32 (n : Nat) : List Nat :=
  [n % 256, n / 256 % 256, n / 65536 % 256, n / 16777216 % 256]

/-- POSIX `S_ISDIR`: the file-type bits of `mode` equal `S_IFDIR` (040000). -/
def S_ISDIR (m : Nat) : Bool := m &&& 0o170000 == 0o040000

/-- POSIX `S_ISREG`: the file-type bits of `mode` equal `S_IFREG` (0100000). -/
def S_ISREG (m : Nat) : Bool := m &&& 0o170000 == 0o100000

/-- Function `construct_path` from builtin-zip-tree.c: base bytes, then filename
bytes, then a trailing slash for directories.  The returned `pathlen` of the
C function is the length of this list. -/
def construct_path (base filename : List Nat) (isdir : Bool) : List Nat :=
  base ++ filename ++ (if isdir then [47] else [])

/-- The configuration the C code reads from globals set before traversal:
the archive-wide DOS time/date stamps and the zlib compression level. -/
structure ZipConfig where
  zip_time : Nat
  zip_date : Nat
  zlib_compression_level : Nat
deriving DecidableEq

/-- The mutable globals of builtin-zip-tree.c plus the bytes written so far
to the archive output stream.  `zip_offset`, `zip_dir_offset` and
`zip_dir_entries` are C `unsigned int`s, updated modulo 2 ^ 32; `zip_dir`
holds the central-directory bytes appended so far; `out` is the archive
output stream. -/
structure ZipState where
  zip_offset : Nat
  zip_dir : List Nat
  zip_dir_offset : Nat
  zip_dir_entries : Nat
  out : List Nat
deriving DecidableEq

/-- The 30 bytes of `struct zip_local_header` as `write_zip_entry` fills
them: magic 0x04034b50, version 20, flags 0, then the per-entry method,
time, date, CRC, sizes and filename length, and a zero extra length. -/
def zip_local_header_bytes (method mtime mdate crc compressed_size
    uncompressed_size filename_length : Nat) : List Nat :=
  copy_le32 0x04034b50 ++ copy_le16 20 ++ copy_le16 0 ++ copy_le16 method ++
  copy_le16 mtime ++ copy_le16 mdate ++ copy_le32 crc ++
  copy_le32 compressed_size ++ copy_le32 uncompressed_size ++
  copy_le16 filename_length ++ copy_le16 0

/-- The 46 bytes of `struct zip_dir_header` as `write_zip_entry` fills
them: magic 0x02014b50, creator version 0, version 20, flags 0, the same
per-entry fields as the local header, zero extra/comment lengths, disk 0,
attributes 0, and the local-header offset of the entry. -/
def zip_dir_header_bytes (method mtime mdate crc compressed_size
    uncompressed_size filename_length offset : Nat) : List Nat :=
  copy_le32 0x02014b50 ++ copy_le16 0 ++ copy_le16 20 ++ copy_le16 0 ++
  copy_le16 method ++ copy_le16 mtime ++ copy_le16 mdate ++ copy_le32 crc ++
  copy_le32 compressed_size ++ copy_le32 uncompressed_size ++
  copy_le16 filename_length ++ copy_le16 0 ++ copy_le16 0 ++ copy_le16 0 ++
  copy_le16 0 ++ copy_le32 0 ++ copy_le32 offset

/-- The 22 bytes of `struct zip_dir_trailer` as `write_zip_trailer` fills
them: magic 0x06054b50, both disk fields 0, the entry count duplicated into
the on-this-disk and total fields, directory size, directory offset, and the
comment length. -/
def zip_dir_trailer_bytes (entries size offset comment_length : Nat) :
    List Nat :=
  copy_le32 0x06054b50 ++ copy_le16 0 ++ copy_le16 0 ++ copy_le16 entries ++
  copy_le16 entries ++ copy_le32 size ++ copy_le32 offset ++
  copy_le16 comment_length

/-- Modelled from the spec: the descend signal of the tree-walker interface
(`READ_TREE_RECURSIVE` from tree.h, which is not under src/) that
`write_zip_entry` returns for directories so that traversal continues into
them.  Any fixed value distinct from the 0 (plain success) and -1 (skip)
returns works; the header defines it as 1. -/
def READ_TREE_RECURSIVE : Int := 1

/-- The common tail of `write_zip_entry` once method, CRC, sizes and payload
are decided (lines 207-255 of builtin-zip-tree.c): append the
central-directory record (46-byte header then path) recording the current
`zip_offset`, bump `zip_dir_offset` and `zip_dir_entries`, then write the
30-byte local header, the path, and — only when `compressed_size > 0` — the
payload to the output stream, advancing `zip_offset` by each write.  All
three `unsigned int` counters wrap modulo 2 ^ 32. -/
def emit_entry (cfg : ZipConfig) (st : ZipState) (path : List Nat)
    (method crc compressed_size uncompressed_size : Nat)
    (payload : List Nat) : ZipState :=
  { zip_offset := (st.zip_offset + 30 + path.length + compressed_size) % 2 ^ 32
    zip_dir := st.zip_dir ++
      zip_dir_header_bytes method cfg.zip_time cfg.zip_date crc
        compressed_size uncompressed_size path.length st.zip_offset ++ path
    zip_dir_offset := (st.zip_dir_offset + 46 + path.length) % 2 ^ 32
    zip_dir_entries := (st.zip_dir_entries + 1) % 2 ^ 32
    out := st.out ++
      zip_local_header_bytes method cfg.zip_time cfg.zip_date crc
        compressed_size uncompressed_size path.length ++ path ++
      (if compressed_size > 0 then payload else []) }

/-- The compression decision of `write_zip_entry` for a regular file (lines
179 and 194-205): method is 0 when the level is 0, otherwise 8; with method
8 the adapter runs and its output is accepted only when
`compressed_size - 6 < size` in `unsigned long` arithmetic, in which case
the payload starts 2 bytes in (skipping the zlib CMF/FLG header) and
`compressed_size` drops by 6 (header plus ADLER32); otherwise the entry
falls back to method 0 with the raw bytes.  Returns
(method, compressed_size, payload). -/
def entry_params (cfg : ZipConfig) (defl : List Nat → Option (List Nat))
    (buffer : List Nat) : Nat × Nat × List Nat :=
  if cfg.zlib_compression_level = 0 then (0, buffer.length, buffer)
  else
    match defl buffer with
    | none => (0, buffer.length, buffer)
    | some d =>
      let cs := (d.length + (2 ^ 64 - 6)) % 2 ^ 64
      if cs < buffer.length then (8, cs, (d.drop 2).take cs)
      else (0, buffer.length, buffer)

/-- Function `write_zip_entry` from builtin-zip-tree.c.  `none` models `die` (content
lookup failure); `some (result, st)` returns the C result value
together with the updated archive state.  A path longer than 0xffff bytes or
an unsupported mode is reported and skipped with result -1 and the state
untouched; a directory emits an empty stored entry (CRC 0, sizes 0) and
returns the descend signal; a regular file emits its content with the
compression decision of `entry_params`. -/
def write_zip_entry (cfg : ZipConfig) (crcF : List Nat → Nat)
    (store defl : List Nat → Option (List Nat))
    (sha1 base filename : List Nat) (mode : Nat)
    (st : ZipState) : Option (Int × ZipState) :=
  let path := construct_path base filename (S_ISDIR mode)
  if path.length > 0xffff then
    some (-1, st)
  else if S_ISDIR mode then
    some (READ_TREE_RECURSIVE, emit_entry cfg st path 0 0 0 0 [])
  else if S_ISREG mode then
    match store sha1 with
    | none => none
    | some buffer =>
      let p := entry_params cfg defl buffer
      some (0, emit_entry cfg st path p.1 (crcF buffer) p.2.1
        buffer.length p.2.2)
  else
    some (-1, st)

/-- One hex digit as `sha1_to_hex` produces it: `0`-`9` then lowercase
`a`-`f`. -/
def hexDigit (n : Nat) : Nat := if n < 10 then 48 + n else 87 + n

/-- Function `sha1_to_hex`: each input byte becomes two lowercase hex characters,
high nibble first.  For a 20-byte digest this yields the 40-character
comment text. -/
def sha1_to_hex : List Nat → List Nat
  | [] => []
  | b :: rest => hexDigit (b / 16) :: hexDigit (b % 16) :: sha1_to_hex rest

/-- Function `write_zip_trailer` from builtin-zip-tree.c: write the first
`zip_dir_offset` bytes of the central-directory buffer, then the 22-byte
trailer (entry counts, directory size, directory offset, comment length 40
or 0), then — when a digest is supplied — 40 bytes of its hex text. -/
def write_zip_trailer (sha1 : Option (List Nat)) (st : ZipState) :
    ZipState :=
  let comment_length : Nat := match sha1 with | some _ => 40 | none => 0
  let comment : List Nat :=
    match sha1 with | some s => (sha1_to_hex s).take 40 | none => []
  let trailer : List Nat :=
    zip_dir_trailer_bytes st.zip_dir_entries st.zip_dir_offset st.zip_offset
      comment_length
  { st with
    out := st.out ++ st.zip_dir.take st.zip_dir_offset ++ trailer ++ comment }

/-- One entry descriptor as the tree walker hands it to `write_zip_entry`:
content hash, accumulated base path, entry name, file mode. -/
structure ZipEntry where
  sha1 : List Nat
  base : List Nat
  filename : List Nat
  mode : Nat
deriving DecidableEq

/-- Folding `write_zip_entry` over a fixed sequence of entry descriptors, as
the traversal does; `none` when some entry dies. -/
def run_entries (cfg : ZipConfig) (crcF : List Nat → Nat)
    (store defl : List Nat → Option (List Nat)) :
    List ZipEntry → ZipState → Option ZipState
  | [], st => some st
  | e :: rest, st =>
    match write_zip_entry cfg crcF store defl e.sha1 e.base e.filename
        e.mode st with
    | none => none
    | some (_, st1) => run_entries cfg crcF store defl rest st1

/-- A whole build: encode every entry in order, then finalize; the result is
the archive byte stream, or `none` when the build died. -/
def build_archive (cfg : ZipConfig) (crcF : List Nat → Nat)
    (store defl : List Nat → Option (List Nat)) (entries : List ZipEntry)
    (digest : Option (List Nat)) (st : ZipState) : Option (List Nat) :=
  match run_entries cfg crcF store defl entries st with
  | none => none
  | some st1 => some (write_zip_trailer digest st1).out

/-- An entry `write_zip_entry` skips (result -1, state untouched): oversized
path or unsupported mode. -/
def entry_skippable (e : ZipEntry) : Bool :=
  decide ((construct_path e.base e.filename (S_ISDIR e.mode)).length >
    0xffff) || (!S_ISDIR e.mode && !S_ISREG e.mode)

/-- Extract `len` bytes at offset `off` of a serialized record. -/
def field (bs : List Nat) (off len : Nat) : List Nat := (bs.drop off).take len

/-- The mirrored per-entry fields of a serialized local header `lh` and a
serialized central-directory record `dr` agree: compression method (offsets
8 and 10), mtime (10 and 12), mdate (12 and 14), CRC-32 (14 and 16),
compressed size (18 and 20), uncompressed size (22 and 24) and filename
length (26 and 28). -/
def headers_agree (lh dr : List Nat) : Prop :=
  field lh 8 2 = field dr 10 2 ∧
  field lh 10 2 = field dr 12 2 ∧
  field lh 12 2 = field dr 14 2 ∧
  field lh 14 4 = field dr 16 4 ∧
  field lh 18 4 = field dr 20 4 ∧
  field lh 22 4 = field dr 24 4 ∧
  field lh 26 2 = field dr 28 2

/-- Exemplar configuration: DOS time 33, date 44, compression level 6. -/
def cfgEx : ZipConfig := ⟨33, 44, 6⟩

/-- Exemplar configuration with compression disabled (level 0). -/
def cfg0 : ZipConfig := ⟨33, 44, 0⟩

/-- Exemplar initial archive state: everything empty. -/
def stEx : ZipState := ⟨0, [], 0, 0, []⟩

/-- Exemplar CRC oracle: sum of the bytes, reduced to 32 bits. -/
def crcEx : List Nat → Nat := fun l => l.foldl (fun a b => a + b) 0 % 2 ^ 32

/-- Exemplar content store: every hash resolves to the bytes of hello. -/
def storeEx : List Nat → Option (List Nat) :=
  fun _ => some [104, 101, 108, 108, 111]

/-- Exemplar content store on which every lookup fails. -/
def storeFail : List Nat → Option (List Nat) := fun _ => none

/-- Exemplar content store resolving every hash to empty content. -/
def storeEmpty : List Nat → Option (List Nat) := fun _ => some []

/-- Exemplar deflate oracle: an 8-byte zlib-framed stream, so the raw
deflate payload after stripping the framing is the middle 2 bytes. -/
def deflEx : List Nat → Option (List Nat) :=
  fun _ => some [1, 2, 3, 4, 5, 6, 7, 8]

/-- Exemplar deflate oracle that always fails. -/
def deflFail : List Nat → Option (List Nat) := fun _ => none

/-- Exemplar deflate oracle returning fewer than 6 bytes (impossible for
real zlib framing; used to exhibit the unsigned wrap in the
profitability test). -/
def deflShort : List Nat → Option (List Nat) := fun _ => some [1, 2]

/-- Exemplar regular-file entry descriptor (mode 0100644). -/
def entryReg : ZipEntry := ⟨[9], [], [97], 0o100644⟩

/-- Exemplar directory entry descriptor (mode 040755). -/
def entryDir : ZipEntry := ⟨[8], [], [100], 0o40755⟩

/-- Exemplar unsupported entry descriptor (symlink mode 0120000). -/
def entryBad : ZipEntry := ⟨[7], [], [108], 0o120000⟩

/-- Exemplar 20-byte digest: 10 zero bytes then 10 bytes 0xab. -/
def digestEx : List Nat := List.replicate 10 0 ++ List.replicate 10 171

/-- The local file header is 30 bytes, like `sizeof(struct
zip_local_header)`. -/
theorem length_zip_local_header (m t d c cs us fl : Nat) :
    (zip_local_header_bytes m t d c cs us fl).length = 30 := rfl

/-- The central-directory record header is 46 bytes, like `sizeof(struct
zip_dir_header)`. -/
theorem length_zip_dir_header (m t d c cs us fl o : Nat) :
    (zip_dir_header_bytes m t d c cs us fl o).length = 46 := by
  simp [zip_dir_header_bytes, copy_le16, copy_le32]

/-- The trailer is 22 bytes, like `sizeof(struct zip_dir_trailer)`. -/
theorem length_zip_dir_trailer (e s o c : Nat) :
    (zip_dir_trailer_bytes e s o c).length = 22 := rfl

/-- Field layout of the serialized local header (with any bytes following
it): compression method at offset 8, mtime at 10, mdate at 12, CRC at 14,
compressed size at 18, uncompressed size at 22, filename length at 26. -/
theorem local_header_fields (m t d c cs us fl : Nat) (rest : List Nat) :
    field (zip_local_header_bytes m t d c cs us fl ++ rest) 8 2 =
      copy_le16 m ∧
    field (zip_local_header_bytes m t d c cs us fl ++ rest) 10 2 =
      copy_le16 t ∧
    field (zip_local_header_bytes m t d c cs us fl ++ rest) 12 2 =
      copy_le16 d ∧
    field (zip_local_header_bytes m t d c cs us fl ++ rest) 14 4 =
      copy_le32 c ∧
    field (zip_local_header_bytes m t d c cs us fl ++ rest) 18 4 =
      copy_le32 cs ∧
    field (zip_local_header_bytes m t d c cs us fl ++ rest) 22 4 =
      copy_le32 us ∧
    field (zip_local_header_bytes m t d c cs us fl ++ rest) 26 2 =
      copy_le16 fl :=
  ⟨rfl, rfl, rfl, rfl, rfl, rfl, rfl⟩

/-- Field layout of the serialized central-directory record (with any bytes
following it): method at offset 10, mtime at 12, mdate at 14, CRC at 16,
compressed size at 20, uncompressed size at 24, filename length at 28,
local-header offset at 42. -/
theorem dir_header_fields (m t d c cs us fl o : Nat) (rest : List Nat) :
    field (zip_dir_header_bytes m t d c cs us fl o ++ rest) 10 2 =
      copy_le16 m ∧
    field (zip_dir_header_bytes m t d c cs us fl o ++ rest) 12 2 =
      copy_le16 t ∧
    field (zip_dir_header_bytes m t d c cs us fl o ++ rest) 14 2 =
      copy_le16 d ∧
    field (zip_dir_header_bytes m t d c cs us fl o ++ rest) 16 4 =
      copy_le32 c ∧
    field (zip_dir_header_bytes m t d c cs us fl o ++ rest) 20 4 =
      copy_le32 cs ∧
    field (zip_dir_header_bytes m t d c cs us fl o ++ rest) 24 4 =
      copy_le32 us ∧
    field (zip_dir_header_bytes m t d c cs us fl o ++ rest) 28 2 =
      copy_le16 fl ∧
    field (zip_dir_header_bytes m t d c cs us fl o ++ rest) 42 4 =
      copy_le32 o := by
  refine ⟨?_, ?_, ?_, ?_, ?_, ?_, ?_, ?_⟩ <;>
    simp [zip_dir_header_bytes, copy_le16, copy_le32, field]

/-- Field layout of the serialized trailer (with any comment bytes
following it): entries-on-this-disk at offset 8, total entries at 10,
directory size at 12, directory offset at 16, comment length at 20. -/
theorem trailer_fields (e s o c : Nat) (rest : List Nat) :
    field (zip_dir_trailer_bytes e s o c ++ rest) 8 2 = copy_le16 e ∧
    field (zip_dir_trailer_bytes e s o c ++ rest) 10 2 = copy_le16 e ∧
    field (zip_dir_trailer_bytes e s o c ++ rest) 12 4 = copy_le32 s ∧
    field (zip_dir_trailer_bytes e s o c ++ rest) 16 4 = copy_le32 o ∧
    field (zip_dir_trailer_bytes e s o c ++ rest) 20 2 = copy_le16 c :=
  ⟨rfl, rfl, rfl, rfl, rfl⟩

/-- An oversized path (more than 0xffff bytes) is skipped: result -1, state
untouched. -/
theorem write_zip_entry_toolong {cfg crcF store defl sha1 base filename mode
    st} (hlen : (construct_path base filename (S_ISDIR mode)).length >
      0xffff) :
    write_zip_entry cfg crcF store defl sha1 base filename mode st =
      some (-1, st) := by
  unfold write_zip_entry
  simp only [if_pos hlen]

/-- A directory entry within the length bound emits an empty stored entry
(method 0, CRC 0, sizes 0, no payload) and returns the descend signal. -/
theorem write_zip_entry_dir {cfg crcF store defl sha1 base filename mode st}
    (hdir : S_ISDIR mode = true)
    (hlen : ¬ (construct_path base filename true).length > 0xffff) :
    write_zip_entry cfg crcF store defl sha1 base filename mode st =
      some (READ_TREE_RECURSIVE,
        emit_entry cfg st (construct_path base filename true)
          0 0 0 0 []) := by
  unfold write_zip_entry
  rw [hdir]
  simp [hlen]

/-- A regular-file entry within the length bound whose content resolves
emits its content with the `entry_params` compression decision, the CRC of
the content, and the uncompressed size, and returns 0. -/
theorem write_zip_entry_reg {cfg crcF store defl sha1 base filename mode st
    buffer} (hdir : S_ISDIR mode = false) (hreg : S_ISREG mode = true)
    (hstore : store sha1 = some buffer)
    (hlen : ¬ (construct_path base filename false).length > 0xffff) :
    write_zip_entry cfg crcF store defl sha1 base filename mode st =
      some (0, emit_entry cfg st (construct_path base filename false)
        (entry_params cfg defl buffer).1 (crcF buffer)
        (entry_params cfg defl buffer).2.1 buffer.length
        (entry_params cfg defl buffer).2.2) := by
  unfold write_zip_entry
  rw [hdir, hreg, hstore]
  simp [hlen]

/-- An entry of unsupported mode (neither directory nor regular file)
within the length bound is skipped: result -1, state untouched. -/
theorem write_zip_entry_unsupported {cfg crcF store defl sha1 base filename
    mode st} (hdir : S_ISDIR mode = false) (hreg : S_ISREG mode = false)
    (hlen : ¬ (construct_path base filename false).length > 0xffff) :
    write_zip_entry cfg crcF store defl sha1 base filename mode st =
      some (-1, st) := by
  unfold write_zip_entry
  rw [hdir, hreg]
  simp [hlen]

/-- A regular-file entry within the length bound whose content lookup fails
dies: the whole build aborts. -/
theorem write_zip_entry_die {cfg crcF store defl sha1 base filename mode st}
    (hdir : S_ISDIR mode = false) (hreg : S_ISREG mode = true)
    (hstore : store sha1 = none)
    (hlen : ¬ (construct_path base filename false).length > 0xffff) :
    write_zip_entry cfg crcF store defl sha1 base filename mode st =
      none := by
  unfold write_zip_entry
  rw [hdir, hreg, hstore]
  simp [hlen]

/-- With compression disabled (level 0) a regular file is always stored
raw: method 0, compressed size = uncompressed size, payload = content. -/
theorem entry_params_level0 {cfg : ZipConfig}
    {defl : List Nat → Option (List Nat)} {buffer : List Nat}
    (h : cfg.zlib_compression_level = 0) :
    entry_params cfg defl buffer = (0, buffer.length, buffer) := by
  simp [entry_params, h]

/-- When the adapter fails, the entry falls back to store. -/
theorem entry_params_deflate_fail {cfg : ZipConfig}
    {defl : List Nat → Option (List Nat)} {buffer : List Nat}
    (h : cfg.zlib_compression_level ≠ 0) (hd : defl buffer = none) :
    entry_params cfg defl buffer = (0, buffer.length, buffer) := by
  simp [entry_params, h, hd]

/-- When the adapter succeeds with a stream of at least 6 and fewer than
2 ^ 64 bytes (true of any real zlib stream: 2 framing bytes, 4 checksum
bytes, length an `unsigned long`), the unsigned profitability test
`compressed_size - 6 < size` is the plain test `d.length - 6 < size`:
acceptance yields method 8 with the framing stripped, otherwise store. -/
theorem entry_params_deflate {cfg : ZipConfig}
    {defl : List Nat → Option (List Nat)} {buffer d : List Nat}
    (h : cfg.zlib_compression_level ≠ 0) (hd : defl buffer = some d)
    (h6 : 6 ≤ d.length) (h64 : d.length < 2 ^ 64) :
    entry_params cfg defl buffer =
      if d.length - 6 < buffer.length then
        (8, d.length - 6, (d.drop 2).take (d.length - 6))
      else (0, buffer.length, buffer) := by
  have hcs : (d.length + 18446744073709551610) % 18446744073709551616 =
      d.length - 6 := by omega
  simp [entry_params, h, hd, hcs]

/-- Under the same real-zlib framing assumption, the payload chosen by
`entry_params` has exactly `compressed_size` bytes. -/
theorem entry_params_payload_length {cfg : ZipConfig}
    {defl : List Nat → Option (List Nat)} {buffer : List Nat}
    (hfr : ∀ d, defl buffer = some d → 6 ≤ d.length ∧ d.length < 2 ^ 64) :
    (entry_params cfg defl buffer).2.2.length =
      (entry_params cfg defl buffer).2.1 := by
  by_cases h : cfg.zlib_compression_level = 0
  · simp [entry_params_level0 h]
  · cases hd : defl buffer with
    | none => simp [entry_params_deflate_fail h hd]
    | some d =>
      obtain ⟨h6, h64⟩ := hfr d hd
      rw [entry_params_deflate h hd h6 h64]
      split
      · simp
        omega
      · simp

/-- The bytes `emit_entry` appends to the output stream, seen from the old
end of the stream: the 30-byte local header, the path, then the payload
exactly when `compressed_size > 0`. -/
theorem emit_entry_out_drop (cfg : ZipConfig) (st : ZipState)
    (path : List Nat) (m c cs us : Nat) (pay : List Nat) :
    ((emit_entry cfg st path m c cs us pay).out).drop st.out.length =
      zip_local_header_bytes m cfg.zip_time cfg.zip_date c cs us
        path.length ++ (path ++ (if cs > 0 then pay else [])) := by
  show ((st.out ++ _ ++ _ ++ _).drop st.out.length) = _
  rw [List.append_assoc, List.append_assoc, List.drop_left]

/-- The bytes `emit_entry` appends to the central-directory buffer, seen
from the old end of the buffer: the 46-byte record header carrying the old
`zip_offset`, then the path. -/
theorem emit_entry_dir_drop (cfg : ZipConfig) (st : ZipState)
    (path : List Nat) (m c cs us : Nat) (pay : List Nat) :
    ((emit_entry cfg st path m c cs us pay).zip_dir).drop
        st.zip_dir.length =
      zip_dir_header_bytes m cfg.zip_time cfg.zip_date c cs us path.length
        st.zip_offset ++ path := by
  show ((st.zip_dir ++ _ ++ _).drop st.zip_dir.length) = _
  rw [List.append_assoc, List.drop_left]

/-- When the payload has exactly `compressed_size` bytes, `emit_entry`
grows the output stream by exactly 30 + path length + compressed size
bytes. -/
theorem emit_entry_out_length (cfg : ZipConfig) (st : ZipState)
    (path : List Nat) (m c cs us : Nat) (pay : List Nat)
    (hpay : pay.length = cs) :
    (emit_entry cfg st path m c cs us pay).out.length =
      st.out.length + (30 + path.length + cs) := by
  show (st.out ++ _ ++ _ ++ _).length = _
  simp only [List.length_append, length_zip_local_header]
  by_cases h : cs > 0
  · rw [if_pos h, hpay]
    omega
  · rw [if_neg h]
    simp only [List.length_nil]
    omega

/-- Lemma: `emit_entry` grows the central-directory buffer by exactly one 46-byte
record header plus the path bytes. -/
theorem emit_entry_dir_length (cfg : ZipConfig) (st : ZipState)
    (path : List Nat) (m c cs us : Nat) (pay : List Nat) :
    (emit_entry cfg st path m c cs us pay).zip_dir.length =
      st.zip_dir.length + (46 + path.length) := by
  show (st.zip_dir ++ _ ++ _).length = _
  simp only [List.length_append, length_zip_dir_header]
  omega

/-- Any entry `emit_entry` writes has agreeing local-header and
directory-record fields, both headers being serialized from the same
method, time, date, CRC, size and length values. -/
theorem emit_headers_agree (cfg : ZipConfig) (st : ZipState)
    (path : List Nat) (m c cs us : Nat) (pay : List Nat) :
    headers_agree
      ((emit_entry cfg st path m c cs us pay).out.drop st.out.length)
      ((emit_entry cfg st path m c cs us pay).zip_dir.drop
        st.zip_dir.length) := by
  rw [emit_entry_out_drop, emit_entry_dir_drop]
  obtain ⟨l1, l2, l3, l4, l5, l6, l7⟩ :=
    local_header_fields m cfg.zip_time cfg.zip_date c cs us path.length
      (path ++ (if cs > 0 then pay else []))
  obtain ⟨d1, d2, d3, d4, d5, d6, d7, _⟩ :=
    dir_header_fields m cfg.zip_time cfg.zip_date c cs us path.length
      st.zip_offset path
  exact ⟨l1.trans d1.symm, l2.trans d2.symm, l3.trans d3.symm,
    l4.trans d4.symm, l5.trans d5.symm, l6.trans d6.symm,
    l7.trans d7.symm⟩

/-- C1: for every entry `write_zip_entry` encodes successfully (a
directory, or a regular file whose content resolves, within the
path-length bound), the 30-byte local file header and the 46-byte
central-directory record written for it carry identical
compression-method, mtime, mdate, CRC-32, compressed-size,
uncompressed-size and filename-length fields, and the CRC-32 field holds
the CRC-32 of the original uncompressed content of the entry — 0, the CRC of
the empty string, for a directory. -/
theorem entry_headers_consistent (cfg : ZipConfig) (crcF : List Nat → Nat)
    (store defl : List Nat → Option (List Nat))
    (sha1 base filename : List Nat) (mode : Nat) (st : ZipState)
    (buffer : List Nat)
    (hlen : ¬ (construct_path base filename (S_ISDIR mode)).length >
      0xffff)
    (hmode : S_ISDIR mode = true ∨
      (S_ISDIR mode = false ∧ S_ISREG mode = true))
    (hstore : store sha1 = some buffer) :
    ∃ r st1,
      write_zip_entry cfg crcF store defl sha1 base filename mode st =
        some (r, st1) ∧
      headers_agree (st1.out.drop st.out.length)
        (st1.zip_dir.drop st.zip_dir.length) ∧
      field (st1.out.drop st.out.length) 14 4 =
        copy_le32 (if S_ISDIR mode then 0 else crcF buffer) := by
  rcases hmode with hdir | ⟨hdir, hreg⟩
  · rw [hdir] at hlen
    refine ⟨READ_TREE_RECURSIVE, _, write_zip_entry_dir hdir hlen, ?_, ?_⟩
    · exact emit_headers_agree cfg st (construct_path base filename true)
        0 0 0 0 []
    · rw [hdir, if_pos rfl, emit_entry_out_drop]
      exact (local_header_fields 0 cfg.zip_time cfg.zip_date 0 0 0 _ _).2.2.2.1
  · rw [hdir] at hlen
    refine ⟨0, _, write_zip_entry_reg hdir hreg hstore hlen, ?_, ?_⟩
    · exact emit_headers_agree cfg st (construct_path base filename false)
        (entry_params cfg defl buffer).1 (crcF buffer)
        (entry_params cfg defl buffer).2.1 buffer.length
        (entry_params cfg defl buffer).2.2
    · rw [hdir, if_neg (by simp), emit_entry_out_drop]
      exact (local_header_fields (entry_params cfg defl buffer).1
        cfg.zip_time cfg.zip_date (crcF buffer)
        (entry_params cfg defl buffer).2.1 buffer.length _ _).2.2.2.1

/-- Witness for C1 at a concrete regular-file entry. -/
theorem entry_headers_consistent_witness :
    ∃ r st1,
      write_zip_entry cfgEx crcEx storeEx deflEx [9] [] [97] 0o100644
        stEx = some (r, st1) ∧
      headers_agree (st1.out.drop stEx.out.length)
        (st1.zip_dir.drop stEx.zip_dir.length) ∧
      field (st1.out.drop stEx.out.length) 14 4 =
        copy_le32 (if S_ISDIR 0o100644 then 0
          else crcEx [104, 101, 108, 108, 111]) :=
  entry_headers_consistent cfgEx crcEx storeEx deflEx [9] [] [97] 0o100644
    stEx [104, 101, 108, 108, 111] (by decide)
    (Or.inr ⟨by decide, by decide⟩) rfl

/-- C2: for every entry encoded successfully, the offset field (at byte 42)
of its central-directory record holds the `zip_offset` value from just
before its local header was written; the entry advances `zip_offset` by
exactly the bytes emitted for it — 30-byte header plus path length plus
compressed size — modulo 2 ^ 32, and grows the output stream by that same
count, so as long as no 32-bit wrap occurs `zip_offset` continues to equal
the total bytes written.  The deflate oracle is assumed to return genuine
zlib streams (at least 6 framing bytes, `unsigned long` length). -/
theorem entry_offset_accounting (cfg : ZipConfig) (crcF : List Nat → Nat)
    (store defl : List Nat → Option (List Nat))
    (sha1 base filename : List Nat) (mode : Nat) (st : ZipState)
    (buffer : List Nat)
    (hlen : ¬ (construct_path base filename (S_ISDIR mode)).length >
      0xffff)
    (hmode : S_ISDIR mode = true ∨
      (S_ISDIR mode = false ∧ S_ISREG mode = true))
    (hstore : store sha1 = some buffer)
    (hfr : ∀ d, defl buffer = some d → 6 ≤ d.length ∧ d.length < 2 ^ 64)
    (hinv : st.zip_offset = st.out.length) :
    ∃ r st1 cs,
      write_zip_entry cfg crcF store defl sha1 base filename mode st =
        some (r, st1) ∧
      field (st1.zip_dir.drop st.zip_dir.length) 42 4 =
        copy_le32 st.zip_offset ∧
      st1.out.length = st.out.length +
        (30 + (construct_path base filename (S_ISDIR mode)).length + cs) ∧
      st1.zip_offset = (st.zip_offset + 30 +
        (construct_path base filename (S_ISDIR mode)).length + cs) %
        2 ^ 32 ∧
      (st.zip_offset + 30 +
          (construct_path base filename (S_ISDIR mode)).length + cs <
          2 ^ 32 →
        st1.zip_offset = st1.out.length) := by
  rcases hmode with hdir | ⟨hdir, hreg⟩
  · rw [hdir] at hlen ⊢
    have h1 : (emit_entry cfg st (construct_path base filename true)
        0 0 0 0 []).out.length = st.out.length +
        (30 + (construct_path base filename true).length + 0) :=
      emit_entry_out_length _ _ _ _ _ _ _ _ rfl
    have h2 : (emit_entry cfg st (construct_path base filename true)
        0 0 0 0 []).zip_offset = (st.zip_offset + 30 +
        (construct_path base filename true).length + 0) % 2 ^ 32 := rfl
    refine ⟨READ_TREE_RECURSIVE, _, 0,
      write_zip_entry_dir hdir hlen, ?_, h1, h2, ?_⟩
    · rw [emit_entry_dir_drop]
      exact (dir_header_fields 0 cfg.zip_time cfg.zip_date 0 0 0 _
        st.zip_offset _).2.2.2.2.2.2.2
    · intro hlt
      rw [h1, h2]
      omega
  · rw [hdir] at hlen ⊢
    have hpay : (entry_params cfg defl buffer).2.2.length =
        (entry_params cfg defl buffer).2.1 :=
      entry_params_payload_length hfr
    have h1 : (emit_entry cfg st (construct_path base filename false)
        (entry_params cfg defl buffer).1 (crcF buffer)
        (entry_params cfg defl buffer).2.1 buffer.length
        (entry_params cfg defl buffer).2.2).out.length =
        st.out.length + (30 + (construct_path base filename false).length +
          (entry_params cfg defl buffer).2.1) :=
      emit_entry_out_length _ _ _ _ _ _ _ _ hpay
    have h2 : (emit_entry cfg st (construct_path base filename false)
        (entry_params cfg defl buffer).1 (crcF buffer)
        (entry_params cfg defl buffer).2.1 buffer.length
        (entry_params cfg defl buffer).2.2).zip_offset =
        (st.zip_offset + 30 + (construct_path base filename false).length +
          (entry_params cfg defl buffer).2.1) % 2 ^ 32 := rfl
    refine ⟨0, _, (entry_params cfg defl buffer).2.1,
      write_zip_entry_reg hdir hreg hstore hlen, ?_, h1, h2, ?_⟩
    · rw [emit_entry_dir_drop]
      exact (dir_header_fields (entry_params cfg defl buffer).1
        cfg.zip_time cfg.zip_date (crcF buffer)
        (entry_params cfg defl buffer).2.1 buffer.length _
        st.zip_offset _).2.2.2.2.2.2.2
    · intro hlt
      rw [h1, h2]
      omega

/-- Witness for C2 at a concrete regular-file entry. -/
theorem entry_offset_accounting_witness :
    ∃ r st1 cs,
      write_zip_entry cfgEx crcEx storeEx deflEx [9] [] [97] 0o100644
        stEx = some (r, st1) ∧
      field (st1.zip_dir.drop stEx.zip_dir.length) 42 4 =
        copy_le32 stEx.zip_offset ∧
      st1.out.length = stEx.out.length +
        (30 + (construct_path [] [97] (S_ISDIR 0o100644)).length + cs) ∧
      st1.zip_offset = (stEx.zip_offset + 30 +
        (construct_path [] [97] (S_ISDIR 0o100644)).length + cs) %
        2 ^ 32 ∧
      (stEx.zip_offset + 30 +
          (construct_path [] [97] (S_ISDIR 0o100644)).length + cs <
          2 ^ 32 →
        st1.zip_offset = st1.out.length) :=
  entry_offset_accounting cfgEx crcEx storeEx deflEx [9] [] [97] 0o100644
    stEx [104, 101, 108, 108, 111] (by decide)
    (Or.inr ⟨by decide, by decide⟩) rfl
    (by
      intro d hd
      simp only [deflEx, Option.some.injEq] at hd
      subst hd
      decide)
    rfl

/-- C3: with a positive compression level, a regular-file entry is written
with method 8 and the adapter output stripped of its 2-byte zlib header
and 4-byte trailing checksum exactly when the deflate call succeeds and the
compressed byte count minus 6 is strictly below the uncompressed size; in
every other case (deflate failure or insufficient shrinkage) the entry
falls back to method 0 with the raw bytes and compressed size equal to
uncompressed size.  The adapter is assumed to return genuine zlib streams
(at least 6 framing bytes, `unsigned long` length). -/
theorem compression_decision (cfg : ZipConfig) (crcF : List Nat → Nat)
    (store defl : List Nat → Option (List Nat))
    (sha1 base filename : List Nat) (mode : Nat) (st : ZipState)
    (buffer : List Nat)
    (hlvl : cfg.zlib_compression_level ≠ 0)
    (hdir : S_ISDIR mode = false) (hreg : S_ISREG mode = true)
    (hstore : store sha1 = some buffer)
    (hlen : ¬ (construct_path base filename false).length > 0xffff)
    (hfr : ∀ d, defl buffer = some d → 6 ≤ d.length ∧ d.length < 2 ^ 64) :
    ∃ m cs pay,
      write_zip_entry cfg crcF store defl sha1 base filename mode st =
        some (0, emit_entry cfg st (construct_path base filename false) m
          (crcF buffer) cs buffer.length pay) ∧
      ((∃ d, defl buffer = some d ∧ d.length - 6 < buffer.length ∧
          m = 8 ∧ cs = d.length - 6 ∧
          pay = (d.drop 2).take (d.length - 6)) ∨
        ((defl buffer = none ∨
            ∃ d, defl buffer = some d ∧ ¬ d.length - 6 < buffer.length) ∧
          m = 0 ∧ cs = buffer.length ∧ pay = buffer)) := by
  rw [write_zip_entry_reg hdir hreg hstore hlen]
  cases hd : defl buffer with
  | none =>
    rw [entry_params_deflate_fail hlvl hd]
    exact ⟨0, buffer.length, buffer, rfl,
      Or.inr ⟨Or.inl rfl, rfl, rfl, rfl⟩⟩
  | some d =>
    obtain ⟨h6, h64⟩ := hfr d hd
    rw [entry_params_deflate hlvl hd h6 h64]
    by_cases hp : d.length - 6 < buffer.length
    · rw [if_pos hp]
      exact ⟨8, d.length - 6, (d.drop 2).take (d.length - 6), rfl,
        Or.inl ⟨d, rfl, hp, rfl, rfl, rfl⟩⟩
    · rw [if_neg hp]
      exact ⟨0, buffer.length, buffer, rfl,
        Or.inr ⟨Or.inr ⟨d, rfl, hp⟩, rfl, rfl, rfl⟩⟩

/-- Witness for C3 at a concrete entry whose 8-byte deflate stream shrinks
below the 5-byte content. -/
theorem compression_decision_witness :
    ∃ m cs pay,
      write_zip_entry cfgEx crcEx storeEx deflEx [9] [] [97] 0o100644
        stEx =
        some (0, emit_entry cfgEx stEx (construct_path [] [97] false) m
          (crcEx [104, 101, 108, 108, 111]) cs
          [104, 101, 108, 108, 111].length pay) ∧
      ((∃ d, deflEx [104, 101, 108, 108, 111] = some d ∧
          d.length - 6 < [104, 101, 108, 108, 111].length ∧
          m = 8 ∧ cs = d.length - 6 ∧
          pay = (d.drop 2).take (d.length - 6)) ∨
        ((deflEx [104, 101, 108, 108, 111] = none ∨
            ∃ d, deflEx [104, 101, 108, 108, 111] = some d ∧
              ¬ d.length - 6 < [104, 101, 108, 108, 111].length) ∧
          m = 0 ∧ cs = [104, 101, 108, 108, 111].length ∧
          pay = [104, 101, 108, 108, 111])) :=
  compression_decision cfgEx crcEx storeEx deflEx [9] [] [97] 0o100644
    stEx [104, 101, 108, 108, 111] (by decide) (by decide) (by decide) rfl
    (by decide)
    (by
      intro d hd
      simp only [deflEx, Option.some.injEq] at hd
      subst hd
      decide)

/-- C9: the profitability test computes `compressed_size - 6` in unsigned
64-bit arithmetic, so a deflate output of fewer than 6 bytes wraps to a
huge value (the sum `d.length + (2 ^ 64 - 6)` is below 2 ^ 64, hence not
reduced) and is rejected whenever the uncompressed size is at most
2 ^ 64 - 6, which holds for any real object; in particular an empty
regular file under a positive compression level is always stored: method
0, compressed size 0, uncompressed size 0, and no payload bytes after the
header and path. -/
theorem profitability_unsigned_wrap (cfg : ZipConfig)
    (crcF : List Nat → Nat) (store defl : List Nat → Option (List Nat))
    (sha1 base filename : List Nat) (mode : Nat) (st : ZipState)
    (hlvl : cfg.zlib_compression_level ≠ 0)
    (hdir : S_ISDIR mode = false) (hreg : S_ISREG mode = true)
    (hlen : ¬ (construct_path base filename false).length > 0xffff) :
    (∀ buffer d, store sha1 = some buffer → defl buffer = some d →
      d.length < 6 → buffer.length ≤ 2 ^ 64 - 6 →
      (d.length + (2 ^ 64 - 6)) % 2 ^ 64 = d.length + (2 ^ 64 - 6) ∧
      write_zip_entry cfg crcF store defl sha1 base filename mode st =
        some (0, emit_entry cfg st (construct_path base filename false) 0
          (crcF buffer) buffer.length buffer.length buffer)) ∧
    (∀ buffer, store sha1 = some buffer → buffer = [] →
      write_zip_entry cfg crcF store defl sha1 base filename mode st =
        some (0, emit_entry cfg st (construct_path base filename false) 0
          (crcF []) 0 0 []) ∧
      (emit_entry cfg st (construct_path base filename false) 0
          (crcF []) 0 0 []).out =
        st.out ++ zip_local_header_bytes 0 cfg.zip_time cfg.zip_date
          (crcF []) 0 0 (construct_path base filename false).length ++
          construct_path base filename false) := by
  constructor
  · intro buffer d hstore hd hshort hbuf
    refine ⟨by omega, ?_⟩
    have hrej : ¬ ((d.length + 18446744073709551610) %
        18446744073709551616 < buffer.length) := by omega
    have hparams : entry_params cfg defl buffer =
        (0, buffer.length, buffer) := by
      simp [entry_params, hlvl, hd, hrej]
    rw [write_zip_entry_reg hdir hreg hstore hlen, hparams]
  · intro buffer hstore hemp
    subst hemp
    have hparams : entry_params cfg defl [] = (0, 0, []) := by
      cases hd : defl [] with
      | none => simp [entry_params, hlvl, hd]
      | some d => simp [entry_params, hlvl, hd]
    refine ⟨?_, ?_⟩
    · rw [write_zip_entry_reg hdir hreg hstore hlen, hparams]
      exact rfl
    · simp [emit_entry]

/-- Witness for C9: a 2-byte deflate output for an empty file is rejected
and the empty entry is stored with no payload. -/
theorem profitability_unsigned_wrap_witness :
    (([1, 2].length + (2 ^ 64 - 6)) % 2 ^ 64 =
      [1, 2].length + (2 ^ 64 - 6) ∧
      write_zip_entry cfgEx crcEx storeEmpty deflShort [9] [] [97]
        0o100644 stEx =
        some (0, emit_entry cfgEx stEx (construct_path [] [97] false) 0
          (crcEx []) 0 0 [])) ∧
    (write_zip_entry cfgEx crcEx storeEmpty deflShort [9] [] [97]
        0o100644 stEx =
        some (0, emit_entry cfgEx stEx (construct_path [] [97] false) 0
          (crcEx []) 0 0 []) ∧
      (emit_entry cfgEx stEx (construct_path [] [97] false) 0
          (crcEx []) 0 0 []).out =
        stEx.out ++ zip_local_header_bytes 0 cfgEx.zip_time cfgEx.zip_date
          (crcEx []) 0 0 (construct_path [] [97] false).length ++
          construct_path [] [97] false) := by
  have h := profitability_unsigned_wrap cfgEx crcEx storeEmpty deflShort
    [9] [] [97] 0o100644 stEx (by decide) (by decide) (by decide)
    (by decide)
  exact ⟨h.1 [] [1, 2] rfl rfl (by decide) (by decide), h.2 [] rfl rfl⟩

/-- Length of a constructed path: base plus filename plus one byte for the
directory slash. -/
theorem construct_path_length (base filename : List Nat) (isdir : Bool) :
    (construct_path base filename isdir).length =
      base.length + filename.length + (if isdir then 1 else 0) := by
  cases isdir
  · simp [construct_path]
  · simp [construct_path]
    omega

/-- Every emitted entry strictly grows the output stream (by at least the
30-byte local header). -/
theorem emit_entry_out_grows (cfg : ZipConfig) (st : ZipState)
    (path : List Nat) (m c cs us : Nat) (pay : List Nat) :
    st.out.length < (emit_entry cfg st path m c cs us pay).out.length := by
  show st.out.length < (st.out ++ _ ++ _ ++ _).length
  simp only [List.length_append, length_zip_local_header]
  omega

/-- C5: an entry whose constructed full path is exactly 65535 bytes long is
encoded successfully (a central-directory record is appended and bytes are
emitted), while a path of 65536 bytes or more is reported as an error and
skipped — result -1 and the state, hence the directory and the output
stream, completely unchanged. -/
theorem path_length_boundary (cfg : ZipConfig) (crcF : List Nat → Nat)
    (store defl : List Nat → Option (List Nat))
    (sha1 base filename : List Nat) (mode : Nat) (st : ZipState)
    (buffer : List Nat) :
    ((construct_path base filename (S_ISDIR mode)).length = 65535 →
      (S_ISDIR mode = true ∨
        (S_ISDIR mode = false ∧ S_ISREG mode = true)) →
      store sha1 = some buffer →
      ∃ r st1,
        write_zip_entry cfg crcF store defl sha1 base filename mode st =
          some (r, st1) ∧
        st1.zip_dir_entries = (st.zip_dir_entries + 1) % 2 ^ 32 ∧
        st.out.length < st1.out.length) ∧
    (65536 ≤ (construct_path base filename (S_ISDIR mode)).length →
      write_zip_entry cfg crcF store defl sha1 base filename mode st =
        some (-1, st)) := by
  constructor
  · intro hlen hmode hstore
    have hle : ¬ (construct_path base filename (S_ISDIR mode)).length >
        0xffff := by omega
    rcases hmode with hdir | ⟨hdir, hreg⟩
    · rw [hdir] at hle
      exact ⟨READ_TREE_RECURSIVE, _, write_zip_entry_dir hdir hle, rfl,
        emit_entry_out_grows _ _ _ _ _ _ _ _⟩
    · rw [hdir] at hle
      exact ⟨0, _, write_zip_entry_reg hdir hreg hstore hle, rfl,
        emit_entry_out_grows _ _ _ _ _ _ _ _⟩
  · intro hlen
    exact write_zip_entry_toolong (by omega)

/-- Witness for C5: a regular file whose path has exactly 65535 bytes is
encoded; with 65536 bytes it is skipped and the state is unchanged. -/
theorem path_length_boundary_witness :
    (∃ r st1,
      write_zip_entry cfgEx crcEx storeEx deflEx [9]
        (List.replicate 65534 98) [97] 0o100644 stEx = some (r, st1) ∧
      st1.zip_dir_entries = (stEx.zip_dir_entries + 1) % 2 ^ 32 ∧
      stEx.out.length < st1.out.length) ∧
    write_zip_entry cfgEx crcEx storeEx deflEx [9]
      (List.replicate 65535 98) [97] 0o100644 stEx = some (-1, stEx) := by
  have hdir : S_ISDIR 0o100644 = false := by decide
  constructor
  · exact (path_length_boundary cfgEx crcEx storeEx deflEx [9]
      (List.replicate 65534 98) [97] 0o100644 stEx
      [104, 101, 108, 108, 111]).1
      (by rw [hdir, construct_path_length, List.length_replicate]; simp)
      (Or.inr ⟨hdir, by decide⟩) rfl
  · exact (path_length_boundary cfgEx crcEx storeEx deflEx [9]
      (List.replicate 65535 98) [97] 0o100644 stEx
      [104, 101, 108, 108, 111]).2
      (by rw [hdir, construct_path_length, List.length_replicate]; simp)

/-- Each entry `write_zip_entry` completes on is either skippable
(oversized path or unsupported mode), leaving the state untouched, or is
counted: `zip_dir_entries` advances by one modulo 2 ^ 32. -/
theorem write_zip_entry_step (cfg : ZipConfig) (crcF : List Nat → Nat)
    (store defl : List Nat → Option (List Nat)) (e : ZipEntry)
    (st : ZipState) (r : Int) (st1 : ZipState)
    (h : write_zip_entry cfg crcF store defl e.sha1 e.base e.filename
      e.mode st = some (r, st1)) :
    (entry_skippable e = true ∧ st1 = st) ∨
    (entry_skippable e = false ∧
      st1.zip_dir_entries = (st.zip_dir_entries + 1) % 2 ^ 32) := by
  by_cases hlen : (construct_path e.base e.filename
      (S_ISDIR e.mode)).length > 0xffff
  · rw [write_zip_entry_toolong hlen] at h
    simp only [Option.some.injEq, Prod.mk.injEq] at h
    exact Or.inl ⟨by simp [entry_skippable, hlen], h.2.symm⟩
  · cases hd : S_ISDIR e.mode with
    | true =>
      rw [hd] at hlen
      rw [write_zip_entry_dir hd hlen] at h
      simp only [Option.some.injEq, Prod.mk.injEq] at h
      refine Or.inr ⟨?_, ?_⟩
      · simp [entry_skippable, hd]
        omega
      · rw [← h.2]
        rfl
    | false =>
      rw [hd] at hlen
      cases hr : S_ISREG e.mode with
      | false =>
        rw [write_zip_entry_unsupported hd hr hlen] at h
        simp only [Option.some.injEq, Prod.mk.injEq] at h
        exact Or.inl ⟨by simp [entry_skippable, hd, hr], h.2.symm⟩
      | true =>
        cases hs : store e.sha1 with
        | none =>
          rw [write_zip_entry_die hd hr hs hlen] at h
          cases h
        | some buffer =>
          rw [write_zip_entry_reg hd hr hs hlen] at h
          simp only [Option.some.injEq, Prod.mk.injEq] at h
          refine Or.inr ⟨?_, ?_⟩
          · simp [entry_skippable, hd, hr]
            omega
          · rw [← h.2]
            rfl

/-- When some entry dies, the whole traversal dies. -/
theorem run_entries_die (cfg : ZipConfig) (crcF : List Nat → Nat)
    (store defl : List Nat → Option (List Nat)) (e : ZipEntry)
    (rest : List ZipEntry) (st : ZipState)
    (h : write_zip_entry cfg crcF store defl e.sha1 e.base e.filename
      e.mode st = none) :
    run_entries cfg crcF store defl (e :: rest) st = none := by
  simp [run_entries, h]

/-- Over a completed traversal, `zip_dir_entries` counts exactly the
non-skippable entries (modulo 2 ^ 32). -/
theorem run_entries_count (cfg : ZipConfig) (crcF : List Nat → Nat)
    (store defl : List Nat → Option (List Nat)) :
    ∀ (es : List ZipEntry) (st0 st1 : ZipState),
      st0.zip_dir_entries < 2 ^ 32 →
      run_entries cfg crcF store defl es st0 = some st1 →
      st1.zip_dir_entries = (st0.zip_dir_entries +
        (es.filter (fun e => ! entry_skippable e)).length) % 2 ^ 32 := by
  intro es
  induction es with
  | nil =>
    intro st0 st1 h0 h
    simp only [run_entries, Option.some.injEq] at h
    subst h
    simp only [List.filter_nil, List.length_nil, Nat.add_zero]
    omega
  | cons e rest ih =>
    intro st0 st1 h0 h
    cases hw : write_zip_entry cfg crcF store defl e.sha1 e.base
        e.filename e.mode st0 with
    | none => simp [run_entries, hw] at h
    | some p =>
      obtain ⟨r, stm⟩ := p
      simp only [run_entries, hw] at h
      rcases write_zip_entry_step cfg crcF store defl e st0 r stm hw with
        ⟨hskip, hst⟩ | ⟨hskip, hent⟩
      · subst hst
        rw [ih _ _ h0 h]
        simp [List.filter_cons, hskip]
      · have hm : stm.zip_dir_entries < 2 ^ 32 := by
          rw [hent]
          exact Nat.mod_lt _ (by norm_num)
        rw [ih stm st1 hm h, hent]
        simp only [List.filter_cons, hskip, Bool.not_false, if_pos,
          List.length_cons]
        omega

/-- C6: skippable per-entry failures — oversized path, unsupported mode —
return -1 with the archive state (cursors, directory, output) completely
unchanged, while a content-lookup failure for a regular file aborts the
whole build (`write_zip_entry` dies, and the traversal dies with it,
producing no partial entry); consequently `zip_dir_entries` always counts
exactly the successfully processed entries. -/
theorem error_state_isolation (cfg : ZipConfig) (crcF : List Nat → Nat)
    (store defl : List Nat → Option (List Nat))
    (sha1 base filename : List Nat) (mode : Nat) (st : ZipState) :
    ((construct_path base filename (S_ISDIR mode)).length > 0xffff →
      write_zip_entry cfg crcF store defl sha1 base filename mode st =
        some (-1, st)) ∧
    (S_ISDIR mode = false → S_ISREG mode = false →
      ¬ (construct_path base filename false).length > 0xffff →
      write_zip_entry cfg crcF store defl sha1 base filename mode st =
        some (-1, st)) ∧
    (S_ISDIR mode = false → S_ISREG mode = true → store sha1 = none →
      ¬ (construct_path base filename false).length > 0xffff →
      write_zip_entry cfg crcF store defl sha1 base filename mode st =
        none) ∧
    (∀ (e : ZipEntry) (rest : List ZipEntry) (st0 : ZipState),
      write_zip_entry cfg crcF store defl e.sha1 e.base e.filename e.mode
        st0 = none →
      run_entries cfg crcF store defl (e :: rest) st0 = none) ∧
    (∀ (es : List ZipEntry) (st0 st1 : ZipState),
      st0.zip_dir_entries < 2 ^ 32 →
      run_entries cfg crcF store defl es st0 = some st1 →
      st1.zip_dir_entries = (st0.zip_dir_entries +
        (es.filter (fun e => ! entry_skippable e)).length) % 2 ^ 32) :=
  ⟨fun h => write_zip_entry_toolong h,
   fun hd hr hl => write_zip_entry_unsupported hd hr hl,
   fun hd hr hs hl => write_zip_entry_die hd hr hs hl,
   fun e rest st0 h => run_entries_die cfg crcF store defl e rest st0 h,
   run_entries_count cfg crcF store defl⟩

/-- Witness for C6: a 65536-byte path and a symlink are skipped with the
state unchanged, a failed lookup kills the entry and the traversal, and a
three-entry run (directory, symlink, file) counts exactly its two
successful entries. -/
theorem error_state_isolation_witness :
    write_zip_entry cfgEx crcEx storeEx deflEx [9] []
      (List.replicate 65536 97) 0o100644 stEx = some (-1, stEx) ∧
    write_zip_entry cfgEx crcEx storeEx deflEx [7] [] [108] 0o120000
      stEx = some (-1, stEx) ∧
    write_zip_entry cfgEx crcEx storeFail deflEx [9] [] [97] 0o100644
      stEx = none ∧
    run_entries cfgEx crcEx storeFail deflEx [entryReg] stEx = none ∧
    ∃ st1,
      run_entries cfgEx crcEx storeEx deflEx [entryDir, entryBad, entryReg]
        stEx = some st1 ∧
      st1.zip_dir_entries = (stEx.zip_dir_entries +
        ([entryDir, entryBad, entryReg].filter
          (fun e => ! entry_skippable e)).length) % 2 ^ 32 := by
  refine ⟨?_, ?_, ?_, ?_, ?_⟩
  · exact (error_state_isolation cfgEx crcEx storeEx deflEx [9] []
      (List.replicate 65536 97) 0o100644 stEx).1
      (by
        rw [show S_ISDIR 0o100644 = false from by decide,
          construct_path_length, List.length_replicate]
        simp)
  · exact (error_state_isolation cfgEx crcEx storeEx deflEx [7] [] [108]
      0o120000 stEx).2.1 (by decide) (by decide) (by decide)
  · exact (error_state_isolation cfgEx crcEx storeFail deflEx [9] [] [97]
      0o100644 stEx).2.2.1 (by decide) (by decide) rfl (by decide)
  · exact (error_state_isolation cfgEx crcEx storeFail deflEx [9] [] [97]
      0o100644 stEx).2.2.2.1 entryReg [] stEx rfl
  · exact ⟨_, rfl, (error_state_isolation cfgEx crcEx storeEx deflEx [9]
      [] [97] 0o100644 stEx).2.2.2.2 [entryDir, entryBad, entryReg] stEx _
      (by decide) rfl⟩

/-- C7: a directory entry is written with method 0 (store), compressed and
uncompressed sizes 0, CRC 0, a path ending in the slash byte 47, no
payload bytes after the header and path, and the descend signal is
returned; more generally, for any entry emitted with a payload of exactly
`compressed_size` bytes, the output stream receives bytes beyond the
header and path exactly when the compressed-size value is nonzero. -/
theorem directory_entry_store (cfg : ZipConfig) (crcF : List Nat → Nat)
    (store defl : List Nat → Option (List Nat))
    (sha1 base filename : List Nat) (mode : Nat) (st : ZipState)
    (hdir : S_ISDIR mode = true)
    (hlen : ¬ (construct_path base filename true).length > 0xffff) :
    write_zip_entry cfg crcF store defl sha1 base filename mode st =
      some (READ_TREE_RECURSIVE,
        emit_entry cfg st (construct_path base filename true) 0 0 0 0 []) ∧
    construct_path base filename true = (base ++ filename) ++ [47] ∧
    (emit_entry cfg st (construct_path base filename true)
        0 0 0 0 []).out =
      st.out ++ zip_local_header_bytes 0 cfg.zip_time cfg.zip_date 0 0 0
        (construct_path base filename true).length ++
      construct_path base filename true ∧
    field ((emit_entry cfg st (construct_path base filename true)
        0 0 0 0 []).out.drop st.out.length) 8 2 = copy_le16 0 ∧
    field ((emit_entry cfg st (construct_path base filename true)
        0 0 0 0 []).out.drop st.out.length) 14 4 = copy_le32 0 ∧
    field ((emit_entry cfg st (construct_path base filename true)
        0 0 0 0 []).out.drop st.out.length) 18 4 = copy_le32 0 ∧
    field ((emit_entry cfg st (construct_path base filename true)
        0 0 0 0 []).out.drop st.out.length) 22 4 = copy_le32 0 ∧
    (∀ (m c cs us : Nat) (pay : List Nat), pay.length = cs →
      (emit_entry cfg st (construct_path base filename true) m c cs us
          pay).out.length =
        st.out.length + (30 + (construct_path base filename true).length +
          cs) ∧
      (st.out.length + (30 + (construct_path base filename true).length) <
          (emit_entry cfg st (construct_path base filename true) m c cs us
            pay).out.length ↔ cs ≠ 0)) := by
  refine ⟨write_zip_entry_dir hdir hlen, ?_, ?_, ?_, ?_, ?_, ?_, ?_⟩
  · simp [construct_path, List.append_assoc]
  · simp [emit_entry]
  · rw [emit_entry_out_drop]
    exact (local_header_fields 0 cfg.zip_time cfg.zip_date 0 0 0 _ _).1
  · rw [emit_entry_out_drop]
    exact (local_header_fields 0 cfg.zip_time cfg.zip_date 0 0 0 _
      _).2.2.2.1
  · rw [emit_entry_out_drop]
    exact (local_header_fields 0 cfg.zip_time cfg.zip_date 0 0 0 _
      _).2.2.2.2.1
  · rw [emit_entry_out_drop]
    exact (local_header_fields 0 cfg.zip_time cfg.zip_date 0 0 0 _
      _).2.2.2.2.2.1
  · intro m c cs us pay hpay
    refine ⟨emit_entry_out_length cfg st _ m c cs us pay hpay, ?_⟩
    rw [emit_entry_out_length cfg st _ m c cs us pay hpay]
    omega

/-- Witness for C7 at a concrete directory entry. -/
theorem directory_entry_store_witness :
    write_zip_entry cfgEx crcEx storeEx deflEx [8] [] [100] 0o40755 stEx =
      some (READ_TREE_RECURSIVE,
        emit_entry cfgEx stEx (construct_path [] [100] true)
          0 0 0 0 []) ∧
    construct_path [] [100] true = ([] ++ [100]) ++ [47] ∧
    (emit_entry cfgEx stEx (construct_path [] [100] true)
        0 0 0 0 []).out =
      stEx.out ++ zip_local_header_bytes 0 cfgEx.zip_time cfgEx.zip_date
        0 0 0 (construct_path [] [100] true).length ++
      construct_path [] [100] true ∧
    field ((emit_entry cfgEx stEx (construct_path [] [100] true)
        0 0 0 0 []).out.drop stEx.out.length) 8 2 = copy_le16 0 ∧
    field ((emit_entry cfgEx stEx (construct_path [] [100] true)
        0 0 0 0 []).out.drop stEx.out.length) 14 4 = copy_le32 0 ∧
    field ((emit_entry cfgEx stEx (construct_path [] [100] true)
        0 0 0 0 []).out.drop stEx.out.length) 18 4 = copy_le32 0 ∧
    field ((emit_entry cfgEx stEx (construct_path [] [100] true)
        0 0 0 0 []).out.drop stEx.out.length) 22 4 = copy_le32 0 ∧
    ((emit_entry cfgEx stEx (construct_path [] [100] true) 0 0 2 0
        [5, 5]).out.length =
      stEx.out.length + (30 + (construct_path [] [100] true).length +
        2) ∧
      (stEx.out.length + (30 + (construct_path [] [100] true).length) <
        (emit_entry cfgEx stEx (construct_path [] [100] true) 0 0 2 0
          [5, 5]).out.length ↔ (2 : Nat) ≠ 0)) := by
  have h := directory_entry_store cfgEx crcEx storeEx deflEx [8] [] [100]
    0o40755 stEx (by decide) (by decide)
  exact ⟨h.1, h.2.1, h.2.2.1, h.2.2.2.1, h.2.2.2.2.1, h.2.2.2.2.2.1,
    h.2.2.2.2.2.2.1, h.2.2.2.2.2.2.2 0 0 2 0 [5, 5] rfl⟩

/-- Value `hexDigit` of a nibble is a decimal digit character or a lowercase
a-f character. -/
theorem hexDigit_range (n : Nat) (h : n ≤ 15) :
    (48 ≤ hexDigit n ∧ hexDigit n ≤ 57) ∨
    (97 ≤ hexDigit n ∧ hexDigit n ≤ 102) := by
  unfold hexDigit
  split
  · left
    omega
  · right
    omega

/-- Function `sha1_to_hex` yields two characters per input byte. -/
theorem length_sha1_to_hex (l : List Nat) :
    (sha1_to_hex l).length = 2 * l.length := by
  induction l with
  | nil => rfl
  | cons b rest ih =>
    simp only [sha1_to_hex, List.length_cons, ih]
    omega

/-- Every character `sha1_to_hex` produces from genuine bytes is a
lowercase hex character. -/
theorem sha1_to_hex_mem (l : List Nat) (hb : ∀ b ∈ l, b < 256) :
    ∀ c ∈ sha1_to_hex l,
      (48 ≤ c ∧ c ≤ 57) ∨ (97 ≤ c ∧ c ≤ 102) := by
  induction l with
  | nil =>
    intro c hc
    simp [sha1_to_hex] at hc
  | cons b rest ih =>
    intro c hc
    simp only [sha1_to_hex, List.mem_cons] at hc
    rcases hc with h1 | h2 | h3
    · subst h1
      refine hexDigit_range _ ?_
      have := hb b (by simp)
      omega
    · subst h2
      exact hexDigit_range _ (by omega)
    · exact ih (fun x hx => hb x (by simp [hx])) c h3

/-- C4: the finalizer writes the first `zip_dir_offset` bytes of the
central-directory buffer verbatim, then a 22-byte trailer whose two
entry-count fields both hold `zip_dir_entries`, whose size field holds
`zip_dir_offset`, whose offset field holds the `zip_offset` cursor as it
stood when the directory write began, and whose comment-length field is 40
followed by the 40 lowercase-hex characters of the digest when one is
supplied, and 0 with no comment bytes otherwise. -/
theorem trailer_layout (st : ZipState) (digest : List Nat)
    (hd20 : digest.length = 20) (hbytes : ∀ b ∈ digest, b < 256) :
    (write_zip_trailer (some digest) st).out =
      st.out ++ st.zip_dir.take st.zip_dir_offset ++
      zip_dir_trailer_bytes st.zip_dir_entries st.zip_dir_offset
        st.zip_offset 40 ++ sha1_to_hex digest ∧
    (write_zip_trailer none st).out =
      st.out ++ st.zip_dir.take st.zip_dir_offset ++
      zip_dir_trailer_bytes st.zip_dir_entries st.zip_dir_offset
        st.zip_offset 0 ∧
    (st.zip_dir_offset ≤ st.zip_dir.length →
      (st.zip_dir.take st.zip_dir_offset).length = st.zip_dir_offset) ∧
    (sha1_to_hex digest).length = 40 ∧
    (∀ c ∈ sha1_to_hex digest,
      (48 ≤ c ∧ c ≤ 57) ∨ (97 ≤ c ∧ c ≤ 102)) ∧
    field (zip_dir_trailer_bytes st.zip_dir_entries st.zip_dir_offset
      st.zip_offset 40 ++ sha1_to_hex digest) 8 2 =
      copy_le16 st.zip_dir_entries ∧
    field (zip_dir_trailer_bytes st.zip_dir_entries st.zip_dir_offset
      st.zip_offset 40 ++ sha1_to_hex digest) 10 2 =
      copy_le16 st.zip_dir_entries ∧
    field (zip_dir_trailer_bytes st.zip_dir_entries st.zip_dir_offset
      st.zip_offset 40 ++ sha1_to_hex digest) 12 4 =
      copy_le32 st.zip_dir_offset ∧
    field (zip_dir_trailer_bytes st.zip_dir_entries st.zip_dir_offset
      st.zip_offset 40 ++ sha1_to_hex digest) 16 4 =
      copy_le32 st.zip_offset ∧
    field (zip_dir_trailer_bytes st.zip_dir_entries st.zip_dir_offset
      st.zip_offset 40 ++ sha1_to_hex digest) 20 2 = copy_le16 40 ∧
    field (zip_dir_trailer_bytes st.zip_dir_entries st.zip_dir_offset
      st.zip_offset 0 ++ []) 20 2 = copy_le16 0 := by
  have h40 : (sha1_to_hex digest).length = 40 := by
    rw [length_sha1_to_hex, hd20]
  refine ⟨?_, ?_, ?_, h40, sha1_to_hex_mem digest hbytes,
    (trailer_fields _ _ _ _ _).1, (trailer_fields _ _ _ _ _).2.1,
    (trailer_fields _ _ _ _ _).2.2.1, (trailer_fields _ _ _ _ _).2.2.2.1,
    (trailer_fields _ _ _ _ _).2.2.2.2, (trailer_fields _ _ _ _ _).2.2.2.2⟩
  · show st.out ++ st.zip_dir.take st.zip_dir_offset ++ _ ++
      (sha1_to_hex digest).take 40 = _
    rw [List.take_of_length_le (Nat.le_of_eq h40)]
  · show st.out ++ st.zip_dir.take st.zip_dir_offset ++ _ ++
      ([] : List Nat) = _
    rw [List.append_nil]
  · intro hle
    rw [List.length_take]
    omega

/-- Witness for C4 at a concrete state and digest. -/
theorem trailer_layout_witness :
    (write_zip_trailer (some digestEx)
        (⟨5, [7, 7], 2, 1, [9]⟩ : ZipState)).out =
      (⟨5, [7, 7], 2, 1, [9]⟩ : ZipState).out ++
      (⟨5, [7, 7], 2, 1, [9]⟩ : ZipState).zip_dir.take 2 ++
      zip_dir_trailer_bytes 1 2 5 40 ++ sha1_to_hex digestEx ∧
    (write_zip_trailer none (⟨5, [7, 7], 2, 1, [9]⟩ : ZipState)).out =
      (⟨5, [7, 7], 2, 1, [9]⟩ : ZipState).out ++
      (⟨5, [7, 7], 2, 1, [9]⟩ : ZipState).zip_dir.take 2 ++
      zip_dir_trailer_bytes 1 2 5 0 ∧
    ((2 : Nat) ≤ [7, 7].length → ([7, 7].take 2).length = 2) ∧
    (sha1_to_hex digestEx).length = 40 ∧
    (∀ c ∈ sha1_to_hex digestEx,
      (48 ≤ c ∧ c ≤ 57) ∨ (97 ≤ c ∧ c ≤ 102)) ∧
    field (zip_dir_trailer_bytes 1 2 5 40 ++ sha1_to_hex digestEx) 8 2 =
      copy_le16 1 ∧
    field (zip_dir_trailer_bytes 1 2 5 40 ++ sha1_to_hex digestEx) 10 2 =
      copy_le16 1 ∧
    field (zip_dir_trailer_bytes 1 2 5 40 ++ sha1_to_hex digestEx) 12 4 =
      copy_le32 2 ∧
    field (zip_dir_trailer_bytes 1 2 5 40 ++ sha1_to_hex digestEx) 16 4 =
      copy_le32 5 ∧
    field (zip_dir_trailer_bytes 1 2 5 40 ++ sha1_to_hex digestEx) 20 2 =
      copy_le16 40 ∧
    field (zip_dir_trailer_bytes 1 2 5 0 ++ []) 20 2 = copy_le16 0 :=
  trailer_layout (⟨5, [7, 7], 2, 1, [9]⟩ : ZipState) digestEx (by decide)
    (by decide)

/-- C8: the build is deterministic — for one fixed sequence of entry
descriptors, fixed oracles (content, CRC, deflate), fixed configuration
(compression level, DOS date/time) and starting state, `build_archive` can
only produce one byte stream: two successful runs are byte-identical. -/
theorem build_deterministic (cfg : ZipConfig) (crcF : List Nat → Nat)
    (store defl : List Nat → Option (List Nat)) (entries : List ZipEntry)
    (digest : Option (List Nat)) (st : ZipState) (o1 o2 : List Nat)
    (h1 : build_archive cfg crcF store defl entries digest st = some o1)
    (h2 : build_archive cfg crcF store defl entries digest st = some o2) :
    o1 = o2 := by
  rw [h1] at h2
  exact Option.some.inj h2

/-- Witness for C8: two runs of a concrete two-entry build agree. -/
theorem build_deterministic_witness :
    ∃ o1 o2,
      build_archive cfgEx crcEx storeEx deflEx [entryDir, entryReg]
        (some digestEx) stEx = some o1 ∧
      build_archive cfgEx crcEx storeEx deflEx [entryDir, entryReg]
        (some digestEx) stEx = some o2 ∧
      o1 = o2 :=
  ⟨_, _, rfl, rfl,
    build_deterministic cfgEx crcEx storeEx deflEx [entryDir, entryReg]
      (some digestEx) stEx _ _ rfl rfl⟩

/-- Packer `copy_le16` depends only on the low 16 bits of its argument. -/
theorem copy_le16_mod (n : Nat) : copy_le16 n = copy_le16 (n % 2 ^ 16) := by
  simp only [copy_le16, List.cons.injEq, and_true]
  omega

/-- Packer `copy_le32` depends only on the low 32 bits of its argument. -/
theorem copy_le32_mod (n : Nat) : copy_le32 n = copy_le32 (n % 2 ^ 32) := by
  simp only [copy_le32, List.cons.injEq, and_true]
  omega

/-- C10: every multi-byte field is written through `copy_le16` /
`copy_le32`, which truncate their argument modulo 2 ^ 16 / 2 ^ 32; the
cursors `zip_offset` and `zip_dir_offset` and the count `zip_dir_entries`
advance modulo 2 ^ 32 as C `unsigned int` values; and the trailer entry-count
fields and size/offset fields hold those values reduced modulo 2 ^ 16 and
2 ^ 32 respectively — the trailer is always emitted, with no error path
and no ZIP64 escape. -/
theorem field_truncation_wraparound :
    (∀ n, copy_le16 n = copy_le16 (n % 2 ^ 16)) ∧
    (∀ n, copy_le32 n = copy_le32 (n % 2 ^ 32)) ∧
    (∀ (cfg : ZipConfig) (st : ZipState) (path : List Nat)
      (m c cs us : Nat) (pay : List Nat),
      (emit_entry cfg st path m c cs us pay).zip_offset =
        (st.zip_offset + 30 + path.length + cs) % 2 ^ 32 ∧
      (emit_entry cfg st path m c cs us pay).zip_dir_offset =
        (st.zip_dir_offset + 46 + path.length) % 2 ^ 32 ∧
      (emit_entry cfg st path m c cs us pay).zip_dir_entries =
        (st.zip_dir_entries + 1) % 2 ^ 32) ∧
    (∀ st : ZipState,
      ((write_zip_trailer none st).out).drop
          (st.out.length + (st.zip_dir.take st.zip_dir_offset).length) =
        zip_dir_trailer_bytes st.zip_dir_entries st.zip_dir_offset
          st.zip_offset 0) ∧
    (∀ st : ZipState,
      field (zip_dir_trailer_bytes st.zip_dir_entries st.zip_dir_offset
        st.zip_offset 0 ++ []) 8 2 =
        copy_le16 (st.zip_dir_entries % 2 ^ 16) ∧
      field (zip_dir_trailer_bytes st.zip_dir_entries st.zip_dir_offset
        st.zip_offset 0 ++ []) 10 2 =
        copy_le16 (st.zip_dir_entries % 2 ^ 16) ∧
      field (zip_dir_trailer_bytes st.zip_dir_entries st.zip_dir_offset
        st.zip_offset 0 ++ []) 12 4 =
        copy_le32 (st.zip_dir_offset % 2 ^ 32) ∧
      field (zip_dir_trailer_bytes st.zip_dir_entries st.zip_dir_offset
        st.zip_offset 0 ++ []) 16 4 =
        copy_le32 (st.zip_offset % 2 ^ 32)) := by
  refine ⟨copy_le16_mod, copy_le32_mod,
    fun cfg st path m c cs us pay => ⟨rfl, rfl, rfl⟩, ?_, ?_⟩
  · intro st
    show ((st.out ++ st.zip_dir.take st.zip_dir_offset ++ _) ++
      ([] : List Nat)).drop _ = _
    rw [List.append_nil, ← List.length_append, List.drop_left]
  · intro st
    exact ⟨((trailer_fields _ _ _ _ _).1).trans (copy_le16_mod _),
      ((trailer_fields _ _ _ _ _).2.1).trans (copy_le16_mod _),
      ((trailer_fields _ _ _ _ _).2.2.1).trans (copy_le32_mod _),
      ((trailer_fields _ _ _ _ _).2.2.2.1).trans (copy_le32_mod _)⟩

end ZipTree
